import Mathlib

/-!
Shallow embedding of the price-cache and alert-evaluation core of the
stock-alerts application, together with proofs of its stated properties.

Sources embedded here:
- src/lib/yahoo_finance.ts : symbol normalization and validation, the
  in-memory fixed-window rate limiter, the TTL price cache, single and
  batch price fetching;
- src/app/api/prices route : the zod bound on batch size;
- src/lib/firebase.ts : bulk push-notification dispatch;
- prisma schema and src/app/api/alerts route : alert deletion with
  cascade to triggered alerts;
- src/components/AlertCard.tsx : the crossing classification shown to
  the user.

Machine numbers are modelled as Rat (prices) and Nat (millisecond
timestamps); fallible operations return Except or Option; the mutable
module-level state (rate-limit map, cache table, database rows) is
passed explicitly.  External collaborators (the Prisma client and the
Yahoo endpoint) are modelled by outcome parameters: each call site
receives the outcome the collaborator would have produced there.
-/

/-! ### Symbol utilities (yahoo_finance.ts lines 45 to 58) -/

/-- Whitespace recognizer used by the JavaScript trim on ASCII input:
space, tab, line feed, vertical tab, form feed, carriage return. -/
def isWsChar (c : Char) : Bool :=
  c.toNat = 32 || c.toNat = 9 || c.toNat = 10 || c.toNat = 11 || c.toNat = 12 || c.toNat = 13

/-- ASCII uppercasing of one character, as toUpperCase acts on the
ASCII range: lowercase letters shift down by 32, all else unchanged. -/
def upChar (c : Char) : Char :=
  if 97 ≤ c.toNat && c.toNat ≤ 122 then Char.ofNat (c.toNat - 32) else c

/-- Remove leading and trailing whitespace from a character list. -/
def trimChars (l : List Char) : List Char :=
  ((l.dropWhile isWsChar).reverse.dropWhile isWsChar).reverse

/-- Embedding of normalizeSymbol: trim then uppercase. -/
def normalizeSymbol (s : String) : String :=
  String.mk ((trimChars s.data).map upChar)

/-- Uppercase ASCII letter recognizer, the character class A to Z. -/
def isUpperAlpha (c : Char) : Bool :=
  65 ≤ c.toNat && c.toNat ≤ 90

/-- The regular expression of one to five uppercase letters, anchored at
both ends, as a predicate on strings. -/
def matchesTickerPattern (s : String) : Bool :=
  1 ≤ s.data.length && s.data.length ≤ 5 && s.data.all isUpperAlpha

/-- Embedding of isValidStockSymbol: the ticker pattern tested against
the uppercased input. -/
def isValidStockSymbol (s : String) : Bool :=
  matchesTickerPattern (String.mk (s.data.map upChar))

/-! ### Rate limiter (yahoo_finance.ts lines 12 to 38) -/

/-- Rate configuration constant from the source. -/
def RATE_LIMIT_REQUESTS : Nat := 100

/-- Window length in milliseconds from the source. -/
def RATE_LIMIT_WINDOW : Nat := 60 * 1000

/-- One record of the in-memory rate-limit map. -/
structure RLRecord where
  count : Nat
  resetTime : Nat
deriving DecidableEq

/-- The rate-limit map, keyed by string. -/
abbrev RLStore := List (String × RLRecord)

/-- Map.set semantics: replace the binding when present, append otherwise. -/
def rlSet (st : RLStore) (key : String) (r : RLRecord) : RLStore :=
  match st with
  | [] => [(key, r)]
  | e :: rest => if e.1 == key then (key, r) :: rest else e :: rlSet rest key r

/-- Embedding of checkRateLimit with the budget and window as explicit
parameters.  Absent record or elapsed window: store count one and allow.
Count at budget: deny leaving the store unchanged.  Otherwise increment
and allow. -/
def checkRateLimitWith (budget window now : Nat) (key : String) (st : RLStore) :
    Bool × RLStore :=
  match List.lookup key st with
  | none => (true, rlSet st key ⟨1, now + window⟩)
  | some record =>
    if now > record.resetTime then
      (true, rlSet st key ⟨1, now + window⟩)
    else if record.count ≥ budget then
      (false, st)
    else
      (true, rlSet st key ⟨record.count + 1, record.resetTime⟩)

/-- checkRateLimit at the configured budget and window. -/
def checkRateLimit (now : Nat) (key : String) (st : RLStore) : Bool × RLStore :=
  checkRateLimitWith RATE_LIMIT_REQUESTS RATE_LIMIT_WINDOW now key st

/-! ### Price cache and upstream fetch (yahoo_finance.ts lines 9, 65 to 174) -/

/-- Cache TTL in minutes from the source. -/
def CACHE_DURATION : Nat := 5

/-- One row of the stock_prices table. -/
structure CacheRow where
  symbol : String
  price : Rat
  updatedAt : Nat
deriving DecidableEq

/-- Successful price answer of the module. -/
structure StockPrice where
  symbol : String
  price : Rat
  change : Option Rat
  changePercent : Option Rat
  timestamp : Nat
deriving DecidableEq

/-- The distinct exceptions thrown by the module, by their messages. -/
inductive PriceError
  | invalidSymbol (raw : String)
  | rateLimited
  | symbolNotFound (symbol : String)
  | requestTimeout
  | fetchFailed (symbol : String)
deriving DecidableEq

/-- Whether a persistence call succeeds or throws. -/
inductive DbOutcome
  | ok
  | dbError
deriving DecidableEq

/-- What the upstream chart endpoint produces for one request: a quote
with market and previous-close prices, a body without chart data, a 404,
a timeout, or another transport error. -/
inductive UpstreamOutcome
  | quote (regularMarketPrice previousClose : Rat)
  | noData
  | notFound404
  | timeout
  | transportError
deriving DecidableEq

/-- Embedding of isCacheValid: the entry is fresh while now is strictly
before the update time plus the TTL. -/
def isCacheValid (updatedAt now : Nat) : Bool :=
  now < updatedAt + CACHE_DURATION * 60 * 1000

/-- findUnique on the stock_prices table by its unique symbol column. -/
def findUniqueCache (tbl : List CacheRow) (sym : String) : Option CacheRow :=
  tbl.find? (fun r => r.symbol == sym)

/-- Embedding of getCachedPrice: a thrown read is caught and becomes
none; otherwise the row is returned when present and fresh. -/
def getCachedPrice (symbol : String) (now : Nat) (read : DbOutcome)
    (tbl : List CacheRow) : Option StockPrice :=
  match read with
  | .dbError => none
  | .ok =>
    match findUniqueCache tbl (normalizeSymbol symbol) with
    | some cached =>
      if isCacheValid cached.updatedAt now then
        some ⟨cached.symbol, cached.price, none, none, cached.updatedAt⟩
      else
        none
    | none => none

/-- Upsert on the stock_prices table keyed by symbol. -/
def upsertCacheRow (tbl : List CacheRow) (sym : String) (price : Rat) (now : Nat) :
    List CacheRow :=
  match tbl with
  | [] => [⟨sym, price, now⟩]
  | r :: rest =>
    if r.symbol == sym then ⟨sym, price, now⟩ :: rest
    else r :: upsertCacheRow rest sym price now

/-- Embedding of updatePriceCache: a thrown upsert is caught and leaves
the table unchanged. -/
def updatePriceCache (symbol : String) (price : Rat) (now : Nat)
    (write : DbOutcome) (tbl : List CacheRow) : List CacheRow :=
  match write with
  | .ok => upsertCacheRow tbl (normalizeSymbol symbol) price now
  | .dbError => tbl

/-- Embedding of fetchPriceFromAPI.  On a quote, the current price is
the regular market price when truthy, else the previous close; a falsy
current price, a body without data, and transport errors all surface as
the generic fetch failure, a 404 as symbol not found, and an abort as
the timeout message.  On success the cache is updated and the fresh
price returned. -/
def fetchPriceFromAPI (symbol : String) (now : Nat) (up : UpstreamOutcome)
    (write : DbOutcome) (tbl : List CacheRow) :
    Except PriceError StockPrice × List CacheRow :=
  let normalizedSymbol := normalizeSymbol symbol
  match up with
  | .quote rmp pc =>
    let currentPrice := if rmp ≠ 0 then rmp else pc
    if currentPrice = 0 then
      (.error (.fetchFailed normalizedSymbol), tbl)
    else
      (.ok ⟨normalizedSymbol, currentPrice, some (rmp - pc),
            some ((rmp - pc) / pc * 100), now⟩,
       updatePriceCache normalizedSymbol currentPrice now write tbl)
  | .noData => (.error (.fetchFailed normalizedSymbol), tbl)
  | .notFound404 => (.error (.symbolNotFound normalizedSymbol), tbl)
  | .timeout => (.error .requestTimeout, tbl)
  | .transportError => (.error (.fetchFailed normalizedSymbol), tbl)

/-- Outcomes of the external collaborators for one getStockPrice call. -/
structure FetchEnv where
  cacheRead : DbOutcome
  upstream : UpstreamOutcome
  cacheWrite : DbOutcome
deriving DecidableEq

/-- Embedding of getStockPrice: normalize and validate the symbol, then
consult the rate limiter under the default key, then try the cache when
requested, finally fetch upstream. -/
def getStockPrice (symbol : String) (useCache : Bool) (now : Nat)
    (env : FetchEnv) (rl : RLStore) (tbl : List CacheRow) :
    Except PriceError StockPrice × RLStore × List CacheRow :=
  let normalizedSymbol := normalizeSymbol symbol
  if ¬ isValidStockSymbol normalizedSymbol then
    (.error (.invalidSymbol symbol), rl, tbl)
  else
    let checked := checkRateLimit now "default" rl
    if ¬ checked.1 then
      (.error .rateLimited, checked.2, tbl)
    else if useCache then
      match getCachedPrice normalizedSymbol now env.cacheRead tbl with
      | some cachedPrice => (.ok cachedPrice, checked.2, tbl)
      | none =>
        let fetched := fetchPriceFromAPI normalizedSymbol now env.upstream env.cacheWrite tbl
        (fetched.1, checked.2, fetched.2)
    else
      let fetched := fetchPriceFromAPI normalizedSymbol now env.upstream env.cacheWrite tbl
      (fetched.1, checked.2, fetched.2)

/-! ### Batch fetch (yahoo_finance.ts lines 216 to 230) and the route bound -/

/-- One element of the batch answer: either a price or, for a caught
per-symbol failure, the error entry built in the catch handler. -/
structure PriceResult where
  symbol : String
  price : Rat
  timestamp : Nat
  change : Option Rat
  changePercent : Option Rat
  error : Option PriceError
deriving DecidableEq

/-- The catch handler of getMultipleStockPrices: a success passes
through, a failure becomes an entry with the normalized symbol, price
zero, the current time, and the error message. -/
def toPriceResult (symbol : String) (now : Nat) :
    Except PriceError StockPrice → PriceResult
  | .ok sp => ⟨sp.symbol, sp.price, sp.timestamp, sp.change, sp.changePercent, none⟩
  | .error e => ⟨normalizeSymbol symbol, 0, now, none, none, some e⟩

/-- Embedding of getMultipleStockPrices: one getStockPrice call per
symbol, each wrapped in its own catch, the shared limiter and cache
state threaded through.  The collaborator outcomes for the call at
position i are envs i. -/
def getMultipleStockPrices (symbols : List String) (useCache : Bool) (now : Nat)
    (envs : Nat → FetchEnv) (rl : RLStore) (tbl : List CacheRow) :
    List PriceResult × RLStore × List CacheRow :=
  match symbols with
  | [] => ([], rl, tbl)
  | s :: rest =>
    let one := getStockPrice s useCache now (envs 0) rl tbl
    let others := getMultipleStockPrices rest useCache now (fun i => envs (i + 1)) one.2.1 one.2.2
    (toPriceResult s now one.1 :: others.1, others.2)

/-- Answer of the prices route on the multiple-symbols path. -/
inductive MultiPricesResponse
  | ok (data : List PriceResult)
  | invalidSymbolsParameter
  | invalidSymbolFormat (bad : List String)
deriving DecidableEq

/-- The zod schema of the route: between one and twenty symbols, each
between one and ten characters. -/
def multiplePricesSchemaOk (symbols : List String) : Bool :=
  1 ≤ symbols.length && symbols.length ≤ 20 &&
    symbols.all (fun s => 1 ≤ s.data.length && s.data.length ≤ 10)

/-- Embedding of the multiple-symbols path of the prices route: schema
validation, then per-symbol format validation, then the batch fetch. -/
def handleMultiplePrices (symbols : List String) (useCache : Bool) (now : Nat)
    (envs : Nat → FetchEnv) (rl : RLStore) (tbl : List CacheRow) :
    MultiPricesResponse × RLStore × List CacheRow :=
  if ¬ multiplePricesSchemaOk symbols then
    (.invalidSymbolsParameter, rl, tbl)
  else
    let invalidSymbols := symbols.filter (fun s => ¬ isValidStockSymbol (normalizeSymbol s))
    if invalidSymbols ≠ [] then
      (.invalidSymbolFormat invalidSymbols, rl, tbl)
    else
      let res := getMultipleStockPrices symbols useCache now envs rl tbl
      (.ok res.1, res.2)

/-! ### Notification fan-out (firebase.ts lines 181 to 235) -/

/-- Per-token result reported by the push gateway inside a resolved
sendToDevice response. -/
inductive FcmSendResult
  | ok
  | invalidToken
  | transientError
  | quotaExceeded
deriving DecidableEq

/-- Whether a per-token result carries no error field. -/
def FcmSendResult.isOk : FcmSendResult → Bool
  | .ok => true
  | _ => false

/-- What the one sendToDevice call produces: a resolved response with
one result per token, or a rejection covering admin initialization and
transport failures. -/
inductive GatewayOutcome
  | results (rs : List FcmSendResult)
  | failure
deriving DecidableEq

/-- One row of the device_tokens table. -/
structure DeviceToken where
  id : String
  token : String
  userId : Option String
  isActive : Bool
deriving DecidableEq

/-- Embedding of sendBulkPushNotifications.  Off the server it throws;
an empty token list returns zero; a rejected gateway call is caught and
returns zero; a resolved response is folded into the count of results
without an error field.  The function performs no database access, so
the device-token table passes through unchanged on every path. -/
def sendBulkPushNotifications (onServer : Bool) (tokens : List String)
    (gw : GatewayOutcome) (db : List DeviceToken) :
    Except String Nat × List DeviceToken :=
  if ¬ onServer then
    (.error "sendBulkPushNotifications should only be called on the server side", db)
  else if tokens.length = 0 then
    (.ok 0, db)
  else
    match gw with
    | .failure => (.ok 0, db)
    | .results rs => (.ok (rs.countP FcmSendResult.isOk), db)

/-! ### Alerts, triggered alerts, and cascading deletion
(prisma schema and the DELETE handler of the alerts route) -/

/-- The alert_condition enum. -/
inductive AlertCondition
  | ABOVE
  | BELOW
deriving DecidableEq

/-- One row of the alerts table. -/
structure Alert where
  id : String
  symbol : String
  targetPrice : Rat
  condition : AlertCondition
  isActive : Bool
  createdAt : Nat
  updatedAt : Nat
deriving DecidableEq

/-- One row of the triggered_alerts table. -/
structure TriggeredAlert where
  id : String
  alertId : String
  symbol : String
  targetPrice : Rat
  actualPrice : Rat
  condition : AlertCondition
  triggeredAt : Nat
  isRead : Bool
deriving DecidableEq

/-- The two tables touched by alert deletion. -/
structure AlertsDb where
  alerts : List Alert
  triggeredAlerts : List TriggeredAlert
deriving DecidableEq

/-- Embedding of the DELETE handler body: deleteMany over the alert ids,
with the onDelete cascade of the schema removing every triggered row
whose parent alert row is among those deleted.  Returns the new state
and the deleted count. -/
def deleteManyAlerts (ids : List String) (db : AlertsDb) : AlertsDb × Nat :=
  let removed := db.alerts.filter (fun a => ids.contains a.id)
  (⟨db.alerts.filter (fun a => ¬ ids.contains a.id),
    db.triggeredAlerts.filter (fun t => ¬ removed.any (fun a => a.id == t.alertId))⟩,
   removed.length)

/-! ### Alert status shown on the card (AlertCard.tsx lines 27 to 53) -/

/-- Embedding of getStatusColor.  A zero price is falsy in the source
and is treated like a missing price. -/
def getStatusColor (alert : Alert) (currentPrice : Option Rat) : String :=
  if ¬ alert.isActive then "bg-gray-100 border-gray-300"
  else
    match currentPrice with
    | none => "bg-yellow-50 border-yellow-200"
    | some p =>
      if p = 0 then "bg-yellow-50 border-yellow-200"
      else if alert.condition = .ABOVE then
        if p ≥ alert.targetPrice then "bg-green-50 border-green-200"
        else "bg-blue-50 border-blue-200"
      else
        if p ≤ alert.targetPrice then "bg-red-50 border-red-200"
        else "bg-blue-50 border-blue-200"

/-- Embedding of getStatusText, same guards as getStatusColor. -/
def getStatusText (alert : Alert) (currentPrice : Option Rat) : String :=
  if ¬ alert.isActive then "Inactive"
  else
    match currentPrice with
    | none => "Loading price..."
    | some p =>
      if p = 0 then "Loading price..."
      else if alert.condition = .ABOVE then
        if p ≥ alert.targetPrice then "Target Reached!" else "Monitoring..."
      else
        if p ≤ alert.targetPrice then "Target Reached!" else "Monitoring..."

deriving instance DecidableEq for Except

/-! ### Character-level lemmas about uppercasing and whitespace -/

/-- Uppercasing a lowercase letter lands 32 below it. -/
theorem upChar_toNat_of_lower {c : Char} (h1 : 97 ≤ c.toNat) (h2 : c.toNat ≤ 122) :
    (upChar c).toNat = c.toNat - 32 := by
  have hv : (c.toNat - 32).isValidChar := Or.inl (by omega)
  have hb : (97 ≤ c.toNat && c.toNat ≤ 122) = true := by simp [h1, h2]
  unfold upChar
  rw [if_pos hb]
  generalize hgen : c.toNat - 32 = n at hv ⊢
  simp [Char.ofNat, hv, Char.ofNatAux, Char.toNat, UInt32.toNat]

/-- Uppercasing fixes characters outside the lowercase range. -/
theorem upChar_eq_of_not_lower {c : Char} (h : ¬ (97 ≤ c.toNat ∧ c.toNat ≤ 122)) :
    upChar c = c := by
  unfold upChar
  rw [if_neg]
  simpa [Bool.and_eq_true, decide_eq_true_eq] using h

/-- Uppercasing does not change whether a character is whitespace. -/
theorem isWsChar_upChar (c : Char) : isWsChar (upChar c) = isWsChar c := by
  by_cases h : 97 ≤ c.toNat ∧ c.toNat ≤ 122
  · have ht : (upChar c).toNat = c.toNat - 32 := upChar_toNat_of_lower h.1 h.2
    obtain ⟨h1, h2⟩ := h
    have hl : isWsChar (upChar c) = false := by
      simp only [isWsChar, ht, Bool.or_eq_false_iff, decide_eq_false_iff_not]
      omega
    have hr : isWsChar c = false := by
      simp only [isWsChar, Bool.or_eq_false_iff, decide_eq_false_iff_not]
      omega
    rw [hl, hr]
  · rw [upChar_eq_of_not_lower h]

/-- Uppercasing one character is idempotent. -/
theorem upChar_upChar (c : Char) : upChar (upChar c) = upChar c := by
  by_cases h : 97 ≤ c.toNat ∧ c.toNat ≤ 122
  · have ht : (upChar c).toNat = c.toNat - 32 := upChar_toNat_of_lower h.1 h.2
    obtain ⟨h1, h2⟩ := h
    apply upChar_eq_of_not_lower
    intro hcon
    rw [ht] at hcon
    omega
  · rw [upChar_eq_of_not_lower h]
    exact upChar_eq_of_not_lower h

/-- Uppercasing a list of characters is idempotent. -/
theorem map_upChar_idem (l : List Char) : (l.map upChar).map upChar = l.map upChar := by
  have hfun : upChar ∘ upChar = upChar := funext upChar_upChar
  rw [List.map_map, hfun]

/-- Leading-whitespace removal commutes with uppercasing. -/
theorem dropWhile_isWs_map_upChar (l : List Char) :
    (l.map upChar).dropWhile isWsChar = (l.dropWhile isWsChar).map upChar := by
  rw [List.dropWhile_map]
  have hfun : isWsChar ∘ upChar = isWsChar := funext isWsChar_upChar
  rw [hfun]

/-- Trimming commutes with uppercasing. -/
theorem trimChars_map_upChar (l : List Char) :
    trimChars (l.map upChar) = (trimChars l).map upChar := by
  simp only [trimChars, dropWhile_isWs_map_upChar, ← List.map_reverse,
    dropWhile_isWs_map_upChar]

/-- The dropWhile length bound, stated for direct use. -/
theorem length_dropWhile_le2 {α : Type} (p : α → Bool) (l : List α) :
    (l.dropWhile p).length ≤ l.length := by
  induction l with
  | nil => simp
  | cons a t ih =>
    rw [List.dropWhile_cons]
    by_cases h : p a
    · simp only [h, if_true]
      exact Nat.le_trans ih (Nat.le_succ _)
    · simp [h]

/-- A list unchanged by dropWhile does not start with a matching element. -/
theorem head_false_of_dropWhile_eq {p : Char → Bool} {a : Char} {t : List Char}
    (h : (a :: t).dropWhile p = a :: t) : p a = false := by
  by_contra hcon
  have ha : p a = true := by revert hcon; cases p a <;> simp
  rw [List.dropWhile_cons, if_pos ha] at h
  have hle := length_dropWhile_le2 p t
  have hlen := congrArg List.length h
  simp at hlen
  omega

/-- If a list has no leading whitespace, neither does it after its
trailing whitespace is removed. -/
theorem dropWhile_after_trailing_trim {X : List Char}
    (hX : X.dropWhile isWsChar = X) :
    ((X.reverse.dropWhile isWsChar).reverse).dropWhile isWsChar
      = (X.reverse.dropWhile isWsChar).reverse := by
  obtain ⟨s, hs⟩ := List.dropWhile_suffix (l := X.reverse) (p := isWsChar)
  have hx : X = (X.reverse.dropWhile isWsChar).reverse ++ s.reverse := by
    have hr := congrArg List.reverse hs
    simpa using hr.symm
  cases hY : (X.reverse.dropWhile isWsChar).reverse with
  | nil => simp
  | cons b u =>
    rw [hY] at hx
    cases hX2 : X with
    | nil =>
      rw [hX2] at hx
      simp at hx
    | cons a t =>
      rw [hX2] at hx
      have hws : isWsChar a = false := by
        apply head_false_of_dropWhile_eq
        rw [← hX2]
        exact hX
      have hx2 : a :: t = b :: (u ++ s.reverse) := by simpa using hx
      have hab : b = a := (((List.cons.injEq a t b (u ++ s.reverse)).mp hx2).1).symm
      rw [hab, List.dropWhile_cons, hws]
      simp

/-- Trimming is idempotent. -/
theorem trimChars_idem (l : List Char) : trimChars (trimChars l) = trimChars l := by
  have hA : (l.dropWhile isWsChar).dropWhile isWsChar = l.dropWhile isWsChar :=
    List.dropWhile_idempotent isWsChar l
  have hK := dropWhile_after_trailing_trim hA
  have h1 : (trimChars l).dropWhile isWsChar = trimChars l := hK
  show (((trimChars l).dropWhile isWsChar).reverse.dropWhile isWsChar).reverse = trimChars l
  rw [h1]
  show ((((l.dropWhile isWsChar).reverse.dropWhile isWsChar).reverse.reverse).dropWhile
    isWsChar).reverse = trimChars l
  rw [List.reverse_reverse, List.dropWhile_idempotent]
  rfl

/-- Symbol normalization is idempotent. -/
theorem normalizeSymbol_idem (s : String) :
    normalizeSymbol (normalizeSymbol s) = normalizeSymbol s := by
  show String.mk ((trimChars ((trimChars s.data).map upChar)).map upChar)
    = String.mk ((trimChars s.data).map upChar)
  rw [trimChars_map_upChar, trimChars_idem, map_upChar_idem]

/-- On a normalized symbol, validity coincides with the ticker pattern. -/
theorem isValid_normalize_eq (s : String) :
    isValidStockSymbol (normalizeSymbol s) = matchesTickerPattern (normalizeSymbol s) := by
  show matchesTickerPattern (String.mk (((trimChars s.data).map upChar).map upChar))
    = matchesTickerPattern (String.mk ((trimChars s.data).map upChar))
  rw [map_upChar_idem]

/-! ### Helper lemmas about single and batch price fetching -/

/-- A successful upstream fetch reports the normalized symbol. -/
theorem fetchPriceFromAPI_ok_symbol {symbol : String} {now : Nat} {up : UpstreamOutcome}
    {w : DbOutcome} {tbl : List CacheRow} {sp : StockPrice}
    (h : (fetchPriceFromAPI symbol now up w tbl).1 = .ok sp) :
    sp.symbol = normalizeSymbol symbol := by
  cases up with
  | quote rmp pc =>
    by_cases hc : (if rmp ≠ 0 then rmp else pc) = 0
    · simp only [fetchPriceFromAPI, hc, if_true, reduceIte] at h
      simp at h
    · simp only [fetchPriceFromAPI] at h
      rw [if_neg hc] at h
      simp at h
      rw [← h]
  | noData => simp [fetchPriceFromAPI] at h
  | notFound404 => simp [fetchPriceFromAPI] at h
  | timeout => simp [fetchPriceFromAPI] at h
  | transportError => simp [fetchPriceFromAPI] at h

/-- A cache hit reports the key it was looked up under. -/
theorem getCachedPrice_some_symbol {symbol : String} {now : Nat} {read : DbOutcome}
    {tbl : List CacheRow} {sp : StockPrice}
    (h : getCachedPrice symbol now read tbl = some sp) :
    sp.symbol = normalizeSymbol symbol := by
  cases read with
  | dbError => simp [getCachedPrice] at h
  | ok =>
    cases hf : findUniqueCache tbl (normalizeSymbol symbol) with
    | none => simp [getCachedPrice, hf] at h
    | some row =>
      simp only [getCachedPrice, hf] at h
      have hf2 : tbl.find? (fun r => r.symbol == normalizeSymbol symbol) = some row := hf
      have hrow := List.find?_some hf2
      have hrs : row.symbol = normalizeSymbol symbol := beq_iff_eq.mp hrow
      by_cases hfresh : isCacheValid row.updatedAt now = true
      · rw [if_pos hfresh] at h
        have hsp := Option.some.inj h
        rw [← hsp]
        exact hrs
      · rw [if_neg hfresh] at h
        simp at h

/-- A successful getStockPrice call reports the normalized symbol, and
that symbol matches the ticker pattern. -/
theorem getStockPrice_fst_ok_symbol {symbol : String} {useCache : Bool} {now : Nat}
    {env : FetchEnv} {rl : RLStore} {tbl : List CacheRow} {sp : StockPrice}
    (h : (getStockPrice symbol useCache now env rl tbl).1 = .ok sp) :
    sp.symbol = normalizeSymbol symbol ∧ matchesTickerPattern sp.symbol = true := by
  have hsym : sp.symbol = normalizeSymbol symbol ∧
      isValidStockSymbol (normalizeSymbol symbol) = true := by
    simp only [getStockPrice] at h
    split at h
    · exact absurd h (by simp)
    · next hv =>
      have hv2 : isValidStockSymbol (normalizeSymbol symbol) = true := by
        revert hv
        cases isValidStockSymbol (normalizeSymbol symbol) <;> simp
      split at h
      · exact absurd h (by simp)
      · split at h
        · cases hcache : getCachedPrice (normalizeSymbol symbol) now env.cacheRead tbl with
          | some c =>
            simp only [hcache] at h
            have hc2 : c = sp := by
              have h2 : Except.ok (ε := PriceError) c = Except.ok sp := h
              exact Except.ok.inj h2
            rw [← hc2]
            exact ⟨by rw [getCachedPrice_some_symbol hcache, normalizeSymbol_idem], hv2⟩
          | none =>
            simp only [hcache] at h
            have h2 : (fetchPriceFromAPI (normalizeSymbol symbol) now env.upstream
                env.cacheWrite tbl).1 = Except.ok sp := h
            exact ⟨by rw [fetchPriceFromAPI_ok_symbol h2, normalizeSymbol_idem], hv2⟩
        · have h2 : (fetchPriceFromAPI (normalizeSymbol symbol) now env.upstream
              env.cacheWrite tbl).1 = Except.ok sp := h
          exact ⟨by rw [fetchPriceFromAPI_ok_symbol h2, normalizeSymbol_idem], hv2⟩
  refine ⟨hsym.1, ?_⟩
  rw [hsym.1, ← isValid_normalize_eq]
  exact hsym.2

/-- The batch result entry always carries the normalized symbol. -/
theorem toPriceResult_symbol (symbol : String) (now : Nat)
    (r : Except PriceError StockPrice)
    (hok : ∀ sp, r = .ok sp → sp.symbol = normalizeSymbol symbol) :
    (toPriceResult symbol now r).symbol = normalizeSymbol symbol := by
  cases r with
  | ok sp => simpa [toPriceResult] using hok sp rfl
  | error e => rfl

/-- The batch answer has one entry per requested symbol. -/
theorem getMultipleStockPrices_length (symbols : List String) (useCache : Bool)
    (now : Nat) (envs : Nat → FetchEnv) (rl : RLStore) (tbl : List CacheRow) :
    (getMultipleStockPrices symbols useCache now envs rl tbl).1.length
      = symbols.length := by
  induction symbols generalizing envs rl tbl with
  | nil => rfl
  | cons s rest ih => simp [getMultipleStockPrices, ih]

/-- Each batch entry carries the normalized form of its own symbol. -/
theorem getMultipleStockPrices_getD_symbol (symbols : List String) (useCache : Bool)
    (now : Nat) (envs : Nat → FetchEnv) (rl : RLStore) (tbl : List CacheRow)
    (i : Nat) (h : i < symbols.length) :
    ((getMultipleStockPrices symbols useCache now envs rl tbl).1.getD i
        ⟨"", 0, 0, none, none, none⟩).symbol
      = normalizeSymbol (symbols.getD i "") := by
  induction symbols generalizing envs rl tbl i with
  | nil => exact absurd h (Nat.not_lt_zero i)
  | cons s rest ih =>
    cases i with
    | zero =>
      show (toPriceResult s now
        (getStockPrice s useCache now (envs 0) rl tbl).1).symbol = normalizeSymbol s
      apply toPriceResult_symbol
      intro sp hsp
      exact (getStockPrice_fst_ok_symbol hsp).1
    | succ j =>
      have hj : j < rest.length := Nat.lt_of_succ_lt_succ h
      exact ih (fun i => envs (i + 1))
        (getStockPrice s useCache now (envs 0) rl tbl).2.1
        (getStockPrice s useCache now (envs 0) rl tbl).2.2 j hj

/-- Status text of an active alert with a nonzero price, in closed form. -/
theorem getStatusText_active_pos (alert : Alert) (p : Rat)
    (hactive : alert.isActive = true) (hp : p ≠ 0) :
    getStatusText alert (some p) =
      if alert.condition = .ABOVE then
        (if p ≥ alert.targetPrice then "Target Reached!" else "Monitoring...")
      else
        (if p ≤ alert.targetPrice then "Target Reached!" else "Monitoring...") := by
  simp [getStatusText, hactive, hp]

/-! ### Claim theorems -/

/-- C3: the fixed-window rate limiter allows and stores count one on the
first use of a key or once the window reset time has passed, increments
and allows while the count is below the budget, and denies without
incrementing once the count has reached the budget; with budget two,
three calls on one key inside one window yield true, true, false. -/
theorem checkRateLimit_fixed_window_behavior (B W now : Nat) (k : String) (st : RLStore) :
    (List.lookup k st = none →
      checkRateLimitWith B W now k st = (true, rlSet st k ⟨1, now + W⟩)) ∧
    (∀ r, List.lookup k st = some r → now > r.resetTime →
      checkRateLimitWith B W now k st = (true, rlSet st k ⟨1, now + W⟩)) ∧
    (∀ r, List.lookup k st = some r → ¬ now > r.resetTime → r.count < B →
      checkRateLimitWith B W now k st = (true, rlSet st k ⟨r.count + 1, r.resetTime⟩)) ∧
    (∀ r, List.lookup k st = some r → ¬ now > r.resetTime → B ≤ r.count →
      checkRateLimitWith B W now k st = (false, st)) ∧
    ((checkRateLimitWith 2 W now k []).1 = true ∧
     (checkRateLimitWith 2 W now k (checkRateLimitWith 2 W now k []).2).1 = true ∧
     (checkRateLimitWith 2 W now k
       (checkRateLimitWith 2 W now k (checkRateLimitWith 2 W now k []).2).2).1 = false) := by
  refine ⟨?_, ?_, ?_, ?_, ?_, ?_, ?_⟩
  · intro h
    simp [checkRateLimitWith, h]
  · intro r hr hnow
    simp [checkRateLimitWith, hr, hnow]
  · intro r hr hnow hcount
    simp [checkRateLimitWith, hr, hnow, not_le.2 hcount]
  · intro r hr hnow hge
    simp [checkRateLimitWith, hr, hnow, hge]
  · simp [checkRateLimitWith, List.lookup]
  · simp [checkRateLimitWith, List.lookup, rlSet, Nat.not_lt.2 (Nat.le_add_right now W)]
  · simp [checkRateLimitWith, List.lookup, rlSet, Nat.not_lt.2 (Nat.le_add_right now W)]

/-- Witness for C3 at concrete inputs. -/
theorem checkRateLimit_fixed_window_behavior_witness :
    checkRateLimitWith 100 60000 0 "default" [] = (true, [("default", ⟨1, 60000⟩)]) :=
  (checkRateLimit_fixed_window_behavior 100 60000 0 "default" []).1 rfl

/-- C2: an active alert with a positive current price is classified as
crossed (status Target Reached) exactly when the condition is ABOVE and
the price is at least the target, or the condition is BELOW and the
price is at most the target; the boundary is closed, so a price equal to
the (positive) target fires for both conditions, while for ABOVE the
target minus one hundredth does not fire and for BELOW the target plus
one hundredth does not fire. -/
theorem alert_crossed_iff_closed_boundary (alert : Alert) (p : Rat)
    (hactive : alert.isActive = true) (hp : 0 < p) (htp : 0 < alert.targetPrice) :
    (getStatusText alert (some p) = "Target Reached!" ↔
      (alert.condition = .ABOVE ∧ alert.targetPrice ≤ p) ∨
      (alert.condition = .BELOW ∧ p ≤ alert.targetPrice)) ∧
    getStatusText alert (some alert.targetPrice) = "Target Reached!" ∧
    (alert.condition = .ABOVE →
      getStatusText alert (some (alert.targetPrice - 1/100)) ≠ "Target Reached!") ∧
    (alert.condition = .BELOW →
      getStatusText alert (some (alert.targetPrice + 1/100)) ≠ "Target Reached!") := by
  refine ⟨?_, ?_, ?_, ?_⟩
  · rw [getStatusText_active_pos alert p hactive hp.ne']
    cases hcond : alert.condition with
    | ABOVE =>
      by_cases hc : alert.targetPrice ≤ p <;> simp [hc, ge_iff_le]
    | BELOW =>
      by_cases hc : p ≤ alert.targetPrice <;> simp [hc]
  · rw [getStatusText_active_pos alert alert.targetPrice hactive htp.ne']
    cases alert.condition <;> simp
  · intro hcond
    by_cases hz : alert.targetPrice - 1/100 = 0
    · simp only [one_div] at hz
      simp [getStatusText, hactive, hz]
    · rw [getStatusText_active_pos alert (alert.targetPrice - 1/100) hactive hz]
      have hlt : alert.targetPrice - 1/100 < alert.targetPrice := by
        apply sub_lt_self
        norm_num
      simp [hcond, ge_iff_le, not_le.2 hlt]
  · intro hcond
    have hpos : (0 : Rat) < alert.targetPrice + 1/100 := by positivity
    rw [getStatusText_active_pos alert (alert.targetPrice + 1/100) hactive hpos.ne']
    have hlt : alert.targetPrice < alert.targetPrice + 1/100 := by
      apply lt_add_of_pos_right
      norm_num
    simp [hcond, not_le.2 hlt]

/-- Witness for C2 at concrete inputs. -/
theorem alert_crossed_iff_closed_boundary_witness :
    getStatusText ⟨"a1", "AAPL", 150, .ABOVE, true, 0, 0⟩ (some 150) = "Target Reached!" :=
  (alert_crossed_iff_closed_boundary ⟨"a1", "AAPL", 150, .ABOVE, true, 0, 0⟩ 150
    rfl (by norm_num) (by norm_num)).2.1

/-- C1 counterexample: the rate limiter is consulted before the cache.
With the budget exhausted, a call for which a fresh cache entry exists
is denied with the rate-limited error instead of returning the entry;
and with budget remaining, a cache hit still increments the stored
count, so cache hits are metered. -/
theorem cacheHit_metered_counterexample :
    (findUniqueCache [⟨"AAPL", 150, 900⟩] (normalizeSymbol "AAPL")
        = some ⟨"AAPL", 150, 900⟩ ∧
      isCacheValid 900 1000 = true) ∧
    getStockPrice "AAPL" true 1000 ⟨.ok, .transportError, .ok⟩
        [("default", ⟨100, 10000000⟩)] [⟨"AAPL", 150, 900⟩]
      = (.error .rateLimited, [("default", ⟨100, 10000000⟩)], [⟨"AAPL", 150, 900⟩]) ∧
    getStockPrice "AAPL" true 1000 ⟨.ok, .transportError, .ok⟩
        [("default", ⟨1, 10000000⟩)] [⟨"AAPL", 150, 900⟩]
      = (.ok ⟨"AAPL", 150, none, none, 900⟩, [("default", ⟨2, 10000000⟩)],
         [⟨"AAPL", 150, 900⟩]) := by
  decide

/-- C1 amended: when the rate limiter allows the call and a fresh cache
entry exists, getStockPrice returns the cached price without touching
the upstream source or the cache table; the rate limiter has however
been consulted first, and the returned limiter state is the
post-consultation one, the answer being the same for every upstream
outcome. -/
theorem getStockPrice_cacheHit_after_rateLimit (symbol : String) (now : Nat)
    (env env2 : FetchEnv) (rl : RLStore) (tbl : List CacheRow) (row : CacheRow)
    (hv : isValidStockSymbol (normalizeSymbol symbol) = true)
    (ha : (checkRateLimit now "default" rl).1 = true)
    (hr : env.cacheRead = DbOutcome.ok) (hr2 : env2.cacheRead = DbOutcome.ok)
    (hfind : findUniqueCache tbl (normalizeSymbol symbol) = some row)
    (hfresh : isCacheValid row.updatedAt now = true) :
    getStockPrice symbol true now env rl tbl
      = (.ok ⟨row.symbol, row.price, none, none, row.updatedAt⟩,
         (checkRateLimit now "default" rl).2, tbl) ∧
    getStockPrice symbol true now env rl tbl
      = getStockPrice symbol true now env2 rl tbl := by
  have hcache : ∀ e : FetchEnv, e.cacheRead = DbOutcome.ok →
      getCachedPrice (normalizeSymbol symbol) now e.cacheRead tbl
        = some ⟨row.symbol, row.price, none, none, row.updatedAt⟩ := by
    intro e he
    rw [he]
    simp [getCachedPrice, normalizeSymbol_idem, hfind, hfresh]
  have hmain : ∀ e : FetchEnv, e.cacheRead = DbOutcome.ok →
      getStockPrice symbol true now e rl tbl
        = (.ok ⟨row.symbol, row.price, none, none, row.updatedAt⟩,
           (checkRateLimit now "default" rl).2, tbl) := by
    intro e he
    simp [getStockPrice, hv, ha, hcache e he]
  exact ⟨hmain env hr, by rw [hmain env hr, hmain env2 hr2]⟩

/-- Witness for the amended C1 at concrete inputs. -/
theorem getStockPrice_cacheHit_after_rateLimit_witness :
    getStockPrice "AAPL" true 1000 ⟨.ok, .transportError, .ok⟩ [] [⟨"AAPL", 150, 900⟩]
      = (.ok ⟨"AAPL", 150, none, none, 900⟩,
         (checkRateLimit 1000 "default" []).2, [⟨"AAPL", 150, 900⟩]) :=
  (getStockPrice_cacheHit_after_rateLimit "AAPL" 1000 ⟨.ok, .transportError, .ok⟩
    ⟨.ok, .timeout, .dbError⟩ [] [⟨"AAPL", 150, 900⟩] ⟨"AAPL", 150, 900⟩
    (by decide) (by decide) rfl rfl (by decide) (by decide)).1

/-- The first component of a fetch does not depend on the cache write
outcome. -/
theorem fetchPriceFromAPI_fst_write_indep (symbol : String) (now : Nat)
    (up : UpstreamOutcome) (w w2 : DbOutcome) (tbl : List CacheRow) :
    (fetchPriceFromAPI symbol now up w tbl).1
      = (fetchPriceFromAPI symbol now up w2 tbl).1 := by
  cases up with
  | quote rmp pc =>
    simp only [fetchPriceFromAPI]
    split <;> first
    | rfl
    | (split <;> rfl)
  | noData => rfl
  | notFound404 => rfl
  | timeout => rfl
  | transportError => rfl

/-- C9: cache persistence failures are invisible at the getPrice
interface: a failing cache read makes the call behave exactly like a
call that skips the cache with a healthy read, and a failing cache
upsert after a successful upstream fetch does not change the returned
answer. -/
theorem cache_layer_failures_invisible (symbol : String) (useCache : Bool) (now : Nat)
    (r : DbOutcome) (up : UpstreamOutcome) (w : DbOutcome) (rl : RLStore)
    (tbl : List CacheRow) :
    getStockPrice symbol useCache now ⟨DbOutcome.dbError, up, w⟩ rl tbl
      = getStockPrice symbol false now ⟨DbOutcome.ok, up, w⟩ rl tbl ∧
    (getStockPrice symbol useCache now ⟨r, up, DbOutcome.dbError⟩ rl tbl).1
      = (getStockPrice symbol useCache now ⟨r, up, DbOutcome.ok⟩ rl tbl).1 := by
  constructor
  · cases useCache <;> rfl
  · by_cases hv : isValidStockSymbol (normalizeSymbol symbol) = true
    · by_cases hcall : (checkRateLimit now "default" rl).1 = true
      · cases useCache with
        | false =>
          simp only [getStockPrice, hv, hcall]
          simp only [not_true_eq_false, Bool.false_eq_true, if_false]
          exact fetchPriceFromAPI_fst_write_indep _ _ _ _ _ _
        | true =>
          cases hcache : getCachedPrice (normalizeSymbol symbol) now r tbl with
          | some c => simp [getStockPrice, hv, hcall, hcache]
          | none =>
            simp only [getStockPrice, hv, hcall, hcache]
            simp only [not_true_eq_false, if_false, if_true]
            exact fetchPriceFromAPI_fst_write_indep _ _ _ _ _ _
      · simp [getStockPrice, hv, hcall]
    · simp [getStockPrice, hv]

/-- C10: symbol normalization is idempotent, and every successful
getStockPrice answer carries the normalized input symbol, which matches
the anchored one-to-five uppercase-letter pattern. -/
theorem normalizeSymbol_idem_and_price_normalized :
    (∀ s : String, normalizeSymbol (normalizeSymbol s) = normalizeSymbol s) ∧
    (∀ (symbol : String) (useCache : Bool) (now : Nat) (env : FetchEnv) (rl : RLStore)
        (tbl : List CacheRow) (sp : StockPrice) (rest : RLStore × List CacheRow),
      getStockPrice symbol useCache now env rl tbl = (.ok sp, rest) →
      sp.symbol = normalizeSymbol symbol ∧ matchesTickerPattern sp.symbol = true) := by
  refine ⟨normalizeSymbol_idem, ?_⟩
  intro symbol useCache now env rl tbl sp rest h
  have h1 : (getStockPrice symbol useCache now env rl tbl).1 = .ok sp := by rw [h]
  exact getStockPrice_fst_ok_symbol h1

/-- Witness for C10 at concrete inputs. -/
theorem normalizeSymbol_idem_and_price_normalized_witness :
    ("AAPL" : String) = normalizeSymbol " aapl " ∧ matchesTickerPattern "AAPL" = true :=
  normalizeSymbol_idem_and_price_normalized.2 " aapl " true 1000
    ⟨.ok, .transportError, .ok⟩ [] [⟨"AAPL", 150, 900⟩] ⟨"AAPL", 150, none, none, 900⟩
    ([("default", ⟨1, 61000⟩)], [⟨"AAPL", 150, 900⟩]) (by decide)

/-- C4: the batch fetch returns one entry per requested symbol, each
entry carrying the normalized form of its own symbol; a per-symbol
failure is captured as an error entry while the sibling symbols are
still looked up: on the concrete batch AAPL, ZZZZZZ, MSFT with the
malformed middle symbol, the answer is two price entries around one
invalid-symbol error entry. -/
theorem getMultipleStockPrices_per_symbol (symbols : List String) (useCache : Bool)
    (now : Nat) (envs : Nat → FetchEnv) (rl : RLStore) (tbl : List CacheRow) :
    (getMultipleStockPrices symbols useCache now envs rl tbl).1.length
        = symbols.length ∧
    (∀ i, i < symbols.length →
      ((getMultipleStockPrices symbols useCache now envs rl tbl).1.getD i
          ⟨"", 0, 0, none, none, none⟩).symbol
        = normalizeSymbol (symbols.getD i "")) ∧
    (getMultipleStockPrices ["AAPL", "ZZZZZZ", "MSFT"] true 0
        (fun _ => ⟨.ok, .quote 100 50, .ok⟩) [] []).1
      = [⟨"AAPL", 100, 0, some (100 - 50), some ((100 - 50) / 50 * 100), none⟩,
         ⟨"ZZZZZZ", 0, 0, none, none, some (.invalidSymbol "ZZZZZZ")⟩,
         ⟨"MSFT", 100, 0, some (100 - 50), some ((100 - 50) / 50 * 100), none⟩] := by
  refine ⟨getMultipleStockPrices_length symbols useCache now envs rl tbl,
    fun i h => getMultipleStockPrices_getD_symbol symbols useCache now envs rl tbl i h,
    ?_⟩
  rfl

/-- Witness for C4 at concrete inputs. -/
theorem getMultipleStockPrices_per_symbol_witness :
    ((getMultipleStockPrices ["AAPL", "msft "] true 0 (fun _ => ⟨.ok, .noData, .ok⟩)
        [] []).1.getD 1 ⟨"", 0, 0, none, none, none⟩).symbol
      = normalizeSymbol "msft " :=
  (getMultipleStockPrices_per_symbol ["AAPL", "msft "] true 0
    (fun _ => ⟨.ok, .noData, .ok⟩) [] []).2.1 1 (by decide)

/-- C5: a batch of more than twenty symbols is rejected by the schema
validation of the route before any per-symbol work: the response is the
invalid-symbols-parameter error, the rate-limit store and the cache
table come back unchanged, and the answer does not depend on the
collaborator outcomes, so no cache read, limiter consultation, or
upstream call has happened for any symbol. -/
theorem oversized_batch_fails_fast (symbols : List String) (useCache : Bool) (now : Nat)
    (envs envs2 : Nat → FetchEnv) (rl : RLStore) (tbl : List CacheRow)
    (h : 20 < symbols.length) :
    handleMultiplePrices symbols useCache now envs rl tbl
      = (.invalidSymbolsParameter, rl, tbl) ∧
    handleMultiplePrices symbols useCache now envs rl tbl
      = handleMultiplePrices symbols useCache now envs2 rl tbl := by
  have h20 : (symbols.length ≤ 20) = False := eq_false (Nat.not_le.2 h)
  have hschema : multiplePricesSchemaOk symbols = false := by
    simp [multiplePricesSchemaOk, h20]
  constructor <;> simp [handleMultiplePrices, hschema]

/-- Witness for C5 at a concrete oversized batch. -/
theorem oversized_batch_fails_fast_witness :
    handleMultiplePrices (List.replicate 21 "A") true 0
        (fun _ => ⟨.ok, .noData, .ok⟩) [] [] = (.invalidSymbolsParameter, [], []) :=
  (oversized_batch_fails_fast (List.replicate 21 "A") true 0
    (fun _ => ⟨.ok, .noData, .ok⟩) (fun _ => ⟨.dbError, .timeout, .dbError⟩) [] []
    (by decide)).1

/-- C6 counterexample: a bulk dispatch to three tokens where the gateway
reports the second one invalid returns two successes but leaves the
device-token table unchanged, so the invalid token is still active
afterwards, contrary to the claim that it is marked inactive. -/
theorem invalid_token_left_active_counterexample :
    sendBulkPushNotifications true ["tok1", "tok2", "tok3"]
        (.results [.ok, .invalidToken, .ok])
        [⟨"d1", "tok1", none, true⟩, ⟨"d2", "tok2", none, true⟩,
         ⟨"d3", "tok3", none, true⟩]
      = (.ok 2,
         [⟨"d1", "tok1", none, true⟩, ⟨"d2", "tok2", none, true⟩,
          ⟨"d3", "tok3", none, true⟩]) ∧
    ((sendBulkPushNotifications true ["tok1", "tok2", "tok3"]
        (.results [.ok, .invalidToken, .ok])
        [⟨"d1", "tok1", none, true⟩, ⟨"d2", "tok2", none, true⟩,
         ⟨"d3", "tok3", none, true⟩]).2.getD 1
        ⟨"", "", none, false⟩).isActive = true := by
  decide

/-- C6 amended: the bulk dispatch counts and logs gateway-reported
failures but performs no database write at all: the device-token table
is returned unchanged for every gateway outcome, so a token reported
invalid keeps its active flag, deactivation being left to a separate
cleanup endpoint. -/
theorem bulk_dispatch_never_deactivates (onServer : Bool) (tokens : List String)
    (gw : GatewayOutcome) (db : List DeviceToken) :
    (sendBulkPushNotifications onServer tokens gw db).2 = db := by
  cases gw <;> simp only [sendBulkPushNotifications] <;> split
  case results.isTrue => rfl
  case results.isFalse => split <;> rfl
  case failure.isTrue => rfl
  case failure.isFalse => split <;> rfl

/-- C7 counterexample: on a wholesale inability to reach the gateway the
bulk dispatch does not raise: the rejection is caught and the call
returns an ok result of zero successes. -/
theorem wholesale_failure_does_not_raise_counterexample :
    sendBulkPushNotifications true ["tok1", "tok2", "tok3"] .failure [] = (.ok 0, []) := by
  decide

/-- Counting lemma: ok results and error results partition a gateway
response. -/
theorem countP_isOk_add_not (rs : List FcmSendResult) :
    rs.countP FcmSendResult.isOk + rs.countP (fun r => !(r.isOk)) = rs.length := by
  induction rs with
  | nil => rfl
  | cons r t ih =>
    cases hr : r.isOk <;> simp [List.countP_cons, hr] <;> omega

/-- C7 amended: on the server the bulk dispatch never raises for any
gateway outcome, a wholesale gateway failure included, where it returns
zero; and when the gateway reports one result per token with k failures
among the n tokens, the returned count is n minus k. -/
theorem bulk_dispatch_success_count (tokens : List String) (rs : List FcmSendResult)
    (db : List DeviceToken) (hlen : rs.length = tokens.length) :
    sendBulkPushNotifications true tokens (.results rs) db
      = (.ok (tokens.length - rs.countP (fun r => !(r.isOk))), db) ∧
    (∀ gw : GatewayOutcome, ∃ n : Nat,
      sendBulkPushNotifications true tokens gw db = (.ok n, db)) := by
  constructor
  · have hsum := countP_isOk_add_not rs
    by_cases h0 : tokens.length = 0
    · have hrs : rs = [] := List.eq_nil_of_length_eq_zero (by omega)
      subst hrs
      simp [sendBulkPushNotifications, h0]
    · simp only [sendBulkPushNotifications, if_neg h0]
      rw [if_neg (by simp)]
      have hc : rs.countP FcmSendResult.isOk
          = tokens.length - rs.countP (fun r => !(r.isOk)) := by omega
      rw [hc]
  · intro gw
    cases gw with
    | results rs2 =>
      by_cases h0 : tokens.length = 0
      · exact ⟨0, by simp [sendBulkPushNotifications, h0]⟩
      · exact ⟨rs2.countP FcmSendResult.isOk, by simp [sendBulkPushNotifications, h0]⟩
    | failure =>
      by_cases h0 : tokens.length = 0
      · exact ⟨0, by simp [sendBulkPushNotifications, h0]⟩
      · exact ⟨0, by simp [sendBulkPushNotifications, h0]⟩

/-- Witness for the amended C7 at concrete inputs. -/
theorem bulk_dispatch_success_count_witness :
    sendBulkPushNotifications true ["a", "b", "c"]
        (.results [.ok, .invalidToken, .transientError]) [] = (.ok (3 - 2), []) :=
  (bulk_dispatch_success_count ["a", "b", "c"] [.ok, .invalidToken, .transientError]
    [] rfl).1

/-- C8: deleting one alert cascades to exactly its own triggered rows:
afterwards the triggered table is the original one filtered to the rows
of other alerts, so no row of the deleted alert survives and every row
of another alert survives unchanged and in order. -/
theorem deleteAlert_cascades_triggered (A : Alert) (db : AlertsDb)
    (hA : A ∈ db.alerts) :
    ((deleteManyAlerts [A.id] db).1).triggeredAlerts
        = db.triggeredAlerts.filter (fun t => t.alertId ≠ A.id) ∧
    (∀ t, t ∈ ((deleteManyAlerts [A.id] db).1).triggeredAlerts → t.alertId ≠ A.id) ∧
    (∀ t, t ∈ db.triggeredAlerts → t.alertId ≠ A.id →
      t ∈ ((deleteManyAlerts [A.id] db).1).triggeredAlerts) := by
  have hmain : ((deleteManyAlerts [A.id] db).1).triggeredAlerts
      = db.triggeredAlerts.filter (fun t => t.alertId ≠ A.id) := by
    show db.triggeredAlerts.filter _ = db.triggeredAlerts.filter _
    apply List.filter_congr
    intro t ht
    by_cases hta : t.alertId = A.id
    · simp [hta]
      exact ⟨A, hA, rfl⟩
    · simp [hta]
      intro x hx hxid
      rw [hxid]
      intro hcon
      exact hta hcon.symm
  refine ⟨hmain, ?_, ?_⟩
  · intro t ht
    rw [hmain] at ht
    have hmem := List.mem_filter.mp ht
    simpa using hmem.2
  · intro t ht hne
    rw [hmain]
    exact List.mem_filter.mpr ⟨ht, by simpa using hne⟩

/-- Witness for C8 at a concrete database. -/
theorem deleteAlert_cascades_triggered_witness :
    ((deleteManyAlerts ["a1"]
        ⟨[⟨"a1", "AAPL", 150, .ABOVE, true, 0, 0⟩, ⟨"a2", "MSFT", 300, .BELOW, true, 0, 0⟩],
         [⟨"t1", "a1", "AAPL", 150, 149, .ABOVE, 5, false⟩,
          ⟨"t2", "a2", "MSFT", 300, 301, .BELOW, 6, false⟩]⟩).1).triggeredAlerts
      = [⟨"t1", "a1", "AAPL", 150, 149, .ABOVE, 5, false⟩,
         ⟨"t2", "a2", "MSFT", 300, 301, .BELOW, 6, false⟩].filter
          (fun t => t.alertId ≠ "a1") :=
  (deleteAlert_cascades_triggered ⟨"a1", "AAPL", 150, .ABOVE, true, 0, 0⟩
    ⟨[⟨"a1", "AAPL", 150, .ABOVE, true, 0, 0⟩, ⟨"a2", "MSFT", 300, .BELOW, true, 0, 0⟩],
     [⟨"t1", "a1", "AAPL", 150, 149, .ABOVE, 5, false⟩,
      ⟨"t2", "a2", "MSFT", 300, 301, .BELOW, 6, false⟩]⟩ (by decide)).1
